import Mathlib

/-!
# Verification of the rproxy route-reconciliation and certificate-lifecycle logic

Shallow embedding of the Go sources of `fjcloud/rproxy`:

* `internal/proxy/router.go` — `Route`, `GetRoute`, `updateRoutes`;
* `internal/certs/manager.go` — `loadCertFromFile`, `obtainOrRenewCert`,
  `CheckAndManageCert`, `GetCertificateForSNI`;
* the Gandi DNS-01 provider — record-name derivation in `Present`/`CleanUp`.

Effectful calls (SSH/podman listing and inspection, ACME obtain, file reads and
writes, key-pair parsing) are modelled as explicit environments passed to the
embedded functions; Go maps whose iteration order the code depends on are
modelled as association lists whose order is part of the input.
-/

namespace Rproxy

/-- First-match lookup in an association list keyed by strings.  Models a Go
map read (`m[k]`) for tables where the newest binding for a key is kept at the
front. -/
def lookupKey {α : Type} (k : String) : List (String × α) → Option α
  | [] => none
  | (f, v) :: t => if f = k then some v else lookupKey k t

/-- `Route` from `router.go`: target backend IP and port. -/
structure Route where
  targetIP : String
  targetPort : Int
  deriving DecidableEq, Repr

/-- The routing table `routes : map[string]Route` (fqdn → Route), as an
association list where an insert prepends and shadows any older binding —
extensionally the Go map write `newRoutes[fqdn] = route` with the most recent
write winning. -/
def RouteTable := List (String × Route)

instance : DecidableEq RouteTable := by
  unfold RouteTable
  infer_instance

/-- Go map write `t[k] = v` under the front-shadowing representation. -/
def tableInsert (t : RouteTable) (k : String) (v : Route) : RouteTable :=
  (k, v) :: t

/-- `ContainerInfo` from `podman/client.go`: data from `podman container list`
with the `exposed-port` / `exposed-fqdn` labels. -/
structure ContainerInfo where
  id : String
  name : String
  exposedPort : String
  fqdn : String
  deriving DecidableEq, Repr

/-- One attached network from `podman inspect` output: the struct holding
`IPAddress` inside `NetworkSettings.Networks`. -/
structure NetworkDetails where
  ipAddress : String
  deriving DecidableEq, Repr

/-- `InspectNetworkSettings.Networks` is a Go `map[string]struct{IPAddress}`;
the embedding keeps it as an association list (attachment name ↦ details)
whose list order is the map's iteration order, which Go does not fix: two
lists that are permutations of each other denote the same inspection data. -/
structure InspectNetworkSettings where
  networks : List (String × NetworkDetails)
  deriving DecidableEq, Repr

/-- `InspectOutput` from `podman/client.go`. -/
structure InspectOutput where
  id : String
  networkSettings : InspectNetworkSettings
  deriving DecidableEq, Repr

/-- Environment of effectful calls made during one reconciliation tick:
`podmanClient.ListContainers()` and `podmanClient.InspectContainer(id)`. -/
structure TickEnv where
  listContainers : Except String (List ContainerInfo)
  inspectContainer : String → Except String InspectOutput

/-- Digit-string to number; `none` on the empty string or a non-digit,
mirroring `strconv.Atoi`'s error on such input. -/
def digitsToNat : List Char → Option Nat
  | [] => none
  | ds => ds.foldl (fun acc c => match acc with
      | none => none
      | some n => if c.isDigit then some (n * 10 + (c.toNat - '0'.toNat)) else none)
    (some 0)

/-- `strconv.Atoi` on the `exposed-port` label: optional sign then digits.
(The int64 range check is irrelevant here and omitted.) -/
def atoi (s : String) : Option Int :=
  match s.data with
  | '+' :: rest => (digitsToNat rest).map Int.ofNat
  | '-' :: rest => (digitsToNat rest).map fun n => -(n : Int)
  | ds => (digitsToNat ds).map Int.ofNat

/-- The IP-selection loop of `updateRoutes` (router.go lines 99–107): iterate
over the attached networks in map-iteration order and keep the first non-empty
`IPAddress`, else the empty string. -/
def selectIP (networks : List (String × NetworkDetails)) : String :=
  match networks.find? (fun p => p.2.ipAddress ≠ "") with
  | some p => p.2.ipAddress
  | none => ""

/-- The per-container body of the inspection goroutine in `updateRoutes`:
inspect the container, select an IP, parse the `exposed-port` label; `none`
when any step fails (the container is dropped from the candidate table). -/
def processContainer (env : TickEnv) (c : ContainerInfo) : Option Route :=
  match env.inspectContainer c.id with
  | .error _ => none
  | .ok inspectData =>
    let ipAddress := selectIP inspectData.networkSettings.networks
    if ipAddress = "" then none
    else
      match atoi c.exposedPort with
      | none => none
      | some exposedPort => some ⟨ipAddress, exposedPort⟩

/-- One step of the accumulation over containers in `updateRoutes`:
`acc = (newRoutes, routesChanged)`.  A resolved container is written into
`newRoutes`; `routesChanged` is set when its fqdn is absent from the old
snapshot or mapped to a different value there. -/
def updateStep (old : RouteTable) (env : TickEnv) (acc : RouteTable × Bool)
    (c : ContainerInfo) : RouteTable × Bool :=
  match processContainer env c with
  | none => acc
  | some newRoute =>
    let newRoutes := tableInsert acc.1 c.fqdn newRoute
    match lookupKey c.fqdn old with
    | some oldRoute => if oldRoute = newRoute then (newRoutes, acc.2) else (newRoutes, true)
    | none => (newRoutes, true)

/-- `updateRoutes` (router.go lines 65–151): on a discovery-listing failure the
old table is kept; otherwise the containers are resolved into a fresh table
and the table reference is swapped only when `routesChanged` was set. -/
def updateRoutes (env : TickEnv) (routes : RouteTable) : RouteTable :=
  match env.listContainers with
  | .error _ => routes
  | .ok containers =>
    let result := containers.foldl (updateStep routes env) ([], false)
    if result.2 then result.1 else routes

/-- The route written for one container, ignoring the `routesChanged` flag. -/
def candStep (env : TickEnv) (acc : RouteTable) (c : ContainerInfo) : RouteTable :=
  match processContainer env c with
  | none => acc
  | some r => tableInsert acc c.fqdn r

/-- The candidate table of one tick, in isolation: the routes of the
successfully resolved containers, later containers shadowing earlier ones. -/
def candidateRoutes (env : TickEnv) (containers : List ContainerInfo) : RouteTable :=
  containers.foldl (candStep env) []

/-- Whether container `c` resolves to a route that is new or changed relative
to the old snapshot — the condition under which `updateRoutes` sets
`routesChanged`. -/
def changedBy (old : RouteTable) (env : TickEnv) (c : ContainerInfo) : Bool :=
  match processContainer env c with
  | none => false
  | some r =>
    match lookupKey c.fqdn old with
    | some oldRoute => decide (oldRoute ≠ r)
    | none => true

/-- `routesChanged` at the end of the tick: some container is new or changed. -/
def hasNewOrChanged (old : RouteTable) (env : TickEnv)
    (containers : List ContainerInfo) : Bool :=
  containers.any (changedBy old env)

/-- `updateStep` through the lens of its two components: the table part is
`candStep` and the flag part is `changedBy`. -/
theorem updateStep_eq (old : RouteTable) (env : TickEnv) (acc : RouteTable)
    (b : Bool) (c : ContainerInfo) :
    updateStep old env (acc, b) c = (candStep env acc c, b || changedBy old env c) := by
  cases hp : processContainer env c with
  | none => simp [updateStep, candStep, changedBy, hp]
  | some r =>
    cases hl : lookupKey c.fqdn old with
    | some oldRoute =>
      by_cases hor : oldRoute = r
      · simp [updateStep, candStep, changedBy, hp, hl, hor]
      · simp [updateStep, candStep, changedBy, hp, hl, hor]
    | none => simp [updateStep, candStep, changedBy, hp, hl]

theorem foldl_updateStep (old : RouteTable) (env : TickEnv)
    (containers : List ContainerInfo) (acc : RouteTable) (b : Bool) :
    containers.foldl (updateStep old env) (acc, b) =
      (containers.foldl (candStep env) acc,
        b || containers.any (changedBy old env)) := by
  induction containers generalizing acc b with
  | nil => simp
  | cons c cs ih =>
    rw [List.foldl_cons, updateStep_eq, ih, List.foldl_cons, List.any_cons]
    rw [Bool.or_assoc]

/-- On a successful listing, `updateRoutes` publishes the candidate table when
`routesChanged` was set and retains the old table otherwise. -/
theorem updateRoutes_ok (env : TickEnv) (routes : RouteTable)
    (containers : List ContainerInfo)
    (h : env.listContainers = .ok containers) :
    updateRoutes env routes =
      if hasNewOrChanged routes env containers then candidateRoutes env containers
      else routes := by
  unfold updateRoutes hasNewOrChanged candidateRoutes
  rw [h]
  simp only [foldl_updateStep, Bool.false_or]

theorem lookupKey_foldl_candStep (env : TickEnv) (containers : List ContainerInfo)
    (acc : RouteTable) (k : String) (v : Route)
    (h : lookupKey k (containers.foldl (candStep env) acc) = some v) :
    (∃ c ∈ containers, c.fqdn = k ∧ processContainer env c = some v) ∨
      lookupKey k acc = some v := by
  induction containers generalizing acc with
  | nil => exact Or.inr h
  | cons c cs ih =>
    rw [List.foldl_cons] at h
    rcases ih _ h with hcs | hacc
    · rcases hcs with ⟨c0, hc0, hk, hv⟩
      exact Or.inl ⟨c0, List.mem_cons_of_mem _ hc0, hk, hv⟩
    · cases hp : processContainer env c with
      | none =>
        rw [candStep, hp] at hacc
        exact Or.inr hacc
      | some r =>
        rw [candStep, hp] at hacc
        by_cases hk : c.fqdn = k
        · simp only [tableInsert, lookupKey, if_pos hk] at hacc
          cases hacc
          exact Or.inl ⟨c, List.mem_cons_self c cs, hk, hp⟩
        · simp only [tableInsert, lookupKey, if_neg hk] at hacc
          exact Or.inr hacc

theorem isSome_lookupKey_foldl_candStep (env : TickEnv)
    (containers : List ContainerInfo) (acc : RouteTable) (k : String)
    (h : (lookupKey k acc).isSome) :
    (lookupKey k (containers.foldl (candStep env) acc)).isSome := by
  induction containers generalizing acc with
  | nil => exact h
  | cons c cs ih =>
    rw [List.foldl_cons]
    apply ih
    cases hp : processContainer env c with
    | none => rw [candStep, hp]; exact h
    | some r =>
      simp only [candStep, hp, tableInsert, lookupKey]
      by_cases hk : c.fqdn = k
      · rw [if_pos hk]; rfl
      · rw [if_neg hk]; exact h

theorem candidateRoutes_complete (env : TickEnv)
    (containers : List ContainerInfo) (c : ContainerInfo) (r : Route)
    (hmem : c ∈ containers) (hp : processContainer env c = some r) :
    (lookupKey c.fqdn (candidateRoutes env containers)).isSome := by
  unfold candidateRoutes
  have hgen : ∀ acc : RouteTable,
      (lookupKey c.fqdn (containers.foldl (candStep env) acc)).isSome := by
    induction containers with
    | nil => cases hmem
    | cons c0 cs ih =>
      intro acc
      rcases List.mem_cons.mp hmem with hc | hc
      · subst hc
        rw [List.foldl_cons]
        apply isSome_lookupKey_foldl_candStep
        simp only [candStep, hp, tableInsert, lookupKey, if_pos rfl]
        rfl
      · rw [List.foldl_cons]
        exact ih hc _
  exact hgen []

/-! ### Concrete sample data for witnesses and counterexamples -/

/-- A previously published table holding Scenario A's route. -/
def sampleTable : RouteTable := [("app.example.com", ⟨"10.0.0.5", 8080⟩)]

/-- A tick in which the discovery listing fails. -/
def failEnv : TickEnv :=
  { listContainers := .error "ssh transport failure"
    inspectContainer := fun _ => .error "not reached" }

/-- A tick in which discovery succeeds but lists no containers. -/
def emptyListEnv : TickEnv :=
  { listContainers := .ok []
    inspectContainer := fun _ => .error "not reached" }

/-- Scenario A's backend: `{id: c1, fqdn: app.example.com, port: 8080}`. -/
def c1Container : ContainerInfo :=
  { id := "c1", name := "app", exposedPort := "8080", fqdn := "app.example.com" }

/-- Scenario A's tick: discovery lists `c1`, which resolves to `10.0.0.5`. -/
def scenarioAEnv : TickEnv :=
  { listContainers := .ok [c1Container]
    inspectContainer := fun i =>
      if i = "c1" then .ok ⟨"c1", ⟨[("podman", ⟨"10.0.0.5"⟩)]⟩⟩
      else .error "unknown container" }

/-! ### Claim C3 -/

/-- C3: on a reconciliation tick whose discovery listing fails, the published
route table after the tick is exactly the table from before the tick. -/
theorem updateRoutes_keeps_table_on_discovery_failure (env : TickEnv)
    (routes : RouteTable) (e : String)
    (h : env.listContainers = .error e) :
    updateRoutes env routes = routes := by
  unfold updateRoutes
  rw [h]

/-- C3 witness: a failing tick over a populated table retains it unchanged. -/
theorem updateRoutes_keeps_table_on_discovery_failure_witness :
    updateRoutes failEnv sampleTable = sampleTable :=
  updateRoutes_keeps_table_on_discovery_failure failEnv sampleTable
    "ssh transport failure" rfl

/-! ### Claim C1 -/

/-- C1 counterexample: a tick whose discovery succeeds with an empty listing
leaves the stale route published.  The candidate table is empty, yet
`app.example.com` is still routed after the tick, because `updateRoutes` only
swaps in the candidate table when some entry is new or changed — removals
alone never trigger the swap. -/
theorem updateRoutes_keeps_removed_route :
    updateRoutes emptyListEnv sampleTable = sampleTable ∧
    candidateRoutes emptyListEnv [] = [] ∧
    lookupKey "app.example.com" (updateRoutes emptyListEnv sampleTable) =
      some ⟨"10.0.0.5", 8080⟩ := by
  refine ⟨rfl, rfl, ?_⟩
  rw [updateRoutes]
  rfl

/-- C1 (amended): after a tick whose discovery listing succeeds, the published
table equals the candidate table built from the successfully resolved
backends whenever at least one resolved backend is new or changed relative to
the previous table; otherwise — in particular when backends merely disappeared
from the listing — the previous table is retained unchanged.  The candidate
table's entries are exactly the resolved backends' fqdn ↦ (address, port)
bindings: every binding read from it comes from a resolved backend, and every
resolved backend's fqdn is present. -/
theorem updateRoutes_publishes_candidate_iff_changed (env : TickEnv)
    (routes : RouteTable) (containers : List ContainerInfo)
    (h : env.listContainers = .ok containers) :
    (hasNewOrChanged routes env containers = true →
        updateRoutes env routes = candidateRoutes env containers) ∧
    (hasNewOrChanged routes env containers = false →
        updateRoutes env routes = routes) ∧
    (∀ k v, lookupKey k (candidateRoutes env containers) = some v →
        ∃ c ∈ containers, c.fqdn = k ∧ processContainer env c = some v) ∧
    (∀ c ∈ containers, ∀ r, processContainer env c = some r →
        (lookupKey c.fqdn (candidateRoutes env containers)).isSome) := by
  refine ⟨?_, ?_, ?_, ?_⟩
  · intro hc
    rw [updateRoutes_ok env routes containers h, if_pos hc]
  · intro hc
    rw [updateRoutes_ok env routes containers h, hc]
    rfl
  · intro k v hv
    rcases lookupKey_foldl_candStep env containers [] k v hv with hfound | hnil
    · exact hfound
    · cases hnil
  · intro c hmem r hp
    exact candidateRoutes_complete env containers c r hmem hp

/-- C1 (amended) witness: Scenario A — starting from an empty table, the tick
discovers `c1` and publishes `app.example.com → (10.0.0.5, 8080)`. -/
theorem updateRoutes_publishes_candidate_iff_changed_witness :
    updateRoutes scenarioAEnv [] = [("app.example.com", ⟨"10.0.0.5", 8080⟩)] := by
  have h :=
    (updateRoutes_publishes_candidate_iff_changed scenarioAEnv [] [c1Container] rfl).1
      (by decide)
  rw [h]
  decide

/-! ### Claim C5 -/

/-- Two attached networks, each with a non-empty address, in one map
iteration order... -/
def twoNetsAB : List (String × NetworkDetails) :=
  [("netA", ⟨"10.0.0.1"⟩), ("netB", ⟨"10.0.0.2"⟩)]

/-- ...and the same two attached networks in the other iteration order: the
same inspection data, since a Go map fixes no iteration order. -/
def twoNetsBA : List (String × NetworkDetails) :=
  [("netB", ⟨"10.0.0.2"⟩), ("netA", ⟨"10.0.0.1"⟩)]

/-- C5: the address the route gets is NOT a deterministic function of the
inspection data.  `selectIP` takes the first non-empty address in map
iteration order, so the same pair of network attachments yields `10.0.0.1`
under one iteration order and `10.0.0.2` under the other. -/
theorem selectIP_depends_on_iteration_order :
    twoNetsAB.Perm twoNetsBA ∧
    selectIP twoNetsAB = "10.0.0.1" ∧
    selectIP twoNetsBA = "10.0.0.2" ∧
    selectIP twoNetsAB ≠ selectIP twoNetsBA := by
  refine ⟨?_, rfl, rfl, by decide⟩
  exact List.Perm.swap _ _ _

/-! ## Certificate manager (`internal/certs/manager.go`)

The manager's state is the in-memory cache `certs : map[string]*tls.Certificate`
and the per-fqdn `<fqdn>.crt` / `<fqdn>.key` files under `/certs`.  File
contents are modelled as strings; `tls.X509KeyPair` followed by
`x509.ParseCertificate` is modelled as an environment function from the two
file contents to a parsed certificate and its `NotAfter` instant (an integer
timestamp), or a parse failure. -/

/-- A parsed `tls.Certificate`, kept opaque. -/
structure TlsCert where
  raw : String
  deriving DecidableEq, Repr

/-- The persisted certificate directory: `<fqdn>.crt` and `<fqdn>.key` files,
each an association list fqdn ↦ file contents (newest write first). -/
structure CertFs where
  crt : List (String × String)
  key : List (String × String)
  deriving DecidableEq, Repr

/-- The in-memory cache `m.certs`. -/
def CertCache := List (String × TlsCert)

instance : DecidableEq CertCache := by
  unfold CertCache
  infer_instance

/-- Pure environment for certificate parsing: `tls.X509KeyPair` +
`x509.ParseCertificate` on the cert/key file contents, yielding the parsed
certificate and its `NotAfter`, or an error. -/
structure CertEnv where
  parseKeyPair : String → String → Except String (TlsCert × Int)

/-- Errors of `loadCertFromFile`: a missing file (`os.IsNotExist`) or a
failed parse. -/
inductive LoadError where
  | notExist
  | parseFailed (msg : String)
  deriving DecidableEq, Repr

/-- `loadCertFromFile` (manager.go lines 179–210): read both files, parse the
pair, and on success cache the certificate under the fqdn and return its
expiry. -/
def loadCertFromFile (env : CertEnv) (fs : CertFs) (cache : CertCache)
    (fqdn : String) : CertCache × Except LoadError Int :=
  match lookupKey fqdn fs.crt with
  | none => (cache, .error .notExist)
  | some certData =>
    match lookupKey fqdn fs.key with
    | none => (cache, .error .notExist)
    | some keyData =>
      match env.parseKeyPair certData keyData with
      | .error e => (cache, .error (.parseFailed e))
      | .ok (cert, notAfter) => ((fqdn, cert) :: cache, .ok notAfter)

/-- `CheckAndManageCert` (manager.go lines 254–282), up to the decision whether
`obtainOrRenewCert` is invoked: stat the `.crt` file — absent means initial
obtainment; present means load it, and a load error means return with no
obtain, while a loaded expiry triggers renewal exactly when
`time.Until(expiry) < renewBefore`.  Returns the updated cache and whether
`obtainOrRenewCert` is invoked; the invoked obtain itself is modelled by
`obtainOrRenewCert` below. -/
def checkAndManageCert (env : CertEnv) (fs : CertFs) (cache : CertCache)
    (now renewBefore : Int) (fqdn : String) : CertCache × Bool :=
  match lookupKey fqdn fs.crt with
  | none => (cache, true)
  | some _ =>
    let load := loadCertFromFile env fs cache fqdn
    match load.2 with
    | .error _ => (load.1, false)
    | .ok expiry => (load.1, decide (expiry - now < renewBefore))

/-- Errors of `GetCertificateForSNI`. -/
inductive SNIError where
  | missingSNI
  | notAvailable
  | inconsistent
  deriving DecidableEq, Repr

/-- `GetCertificateForSNI` (manager.go lines 284–318): reject an empty server
name; otherwise serve from the cache, falling back to one lazy
`loadCertFromFile` (which caches on success); a load failure is reported as
"certificate not available".  This function never invokes
`obtainOrRenewCert`: its result is determined by the cache and the persisted
files alone. -/
def getCertificateForSNI (env : CertEnv) (fs : CertFs) (cache : CertCache)
    (serverName : String) : CertCache × Except SNIError TlsCert :=
  if serverName = "" then (cache, .error .missingSNI)
  else
    match lookupKey serverName cache with
    | some cert => (cache, .ok cert)
    | none =>
      let load := loadCertFromFile env fs cache serverName
      match load.2 with
      | .error _ => (load.1, .error .notAvailable)
      | .ok _ =>
        match lookupKey serverName load.1 with
        | some cert => (load.1, .ok cert)
        | none => (load.1, .error .inconsistent)

/-- Environment of the effectful steps of `obtainOrRenewCert`: the result of
`legoClient.Certificate.Obtain` (certificate bytes and key bytes, or an ACME
failure), and whether each of the two `os.WriteFile` calls succeeds (a failed
write leaves the target file unchanged). -/
structure ObtainEnv where
  obtainResult : Except String (String × String)
  writeCrtOk : Bool
  writeKeyOk : Bool

/-- Result of `obtainOrRenewCert`: persisted files, cache, and the returned
error, if any. -/
structure ObtainOutcome where
  fs : CertFs
  cache : CertCache
  res : Except String Unit

/-- `obtainOrRenewCert` (manager.go lines 213–251): ask the ACME client for a
certificate; on success write the certificate file, then the key file, then
`loadCertFromFile` to parse and cache — a load/parse failure at that last step
is only logged and the function still returns success. -/
def obtainOrRenewCert (env : CertEnv) (oenv : ObtainEnv) (fs : CertFs)
    (cache : CertCache) (fqdn : String) : ObtainOutcome :=
  match oenv.obtainResult with
  | .error e => ⟨fs, cache, .error ("failed to obtain certificate: " ++ e)⟩
  | .ok (certBytes, keyBytes) =>
    if oenv.writeCrtOk then
      let fs1 : CertFs := ⟨(fqdn, certBytes) :: fs.crt, fs.key⟩
      if oenv.writeKeyOk then
        let fs2 : CertFs := ⟨fs1.crt, (fqdn, keyBytes) :: fs.key⟩
        let load := loadCertFromFile env fs2 cache fqdn
        ⟨fs2, load.1, .ok ()⟩
      else ⟨fs1, cache, .error "failed to save private key"⟩
    else ⟨fs, cache, .error "failed to save certificate"⟩

/-- `CheckAndManageCert` holds no lock between its `needsObtain` decision and
its call to `obtainOrRenewCert` (`m.mu` only guards the cache map inside
`loadCertFromFile`), so when `n` concurrent invocations for one fqdn are
scheduled with every decision evaluated against the same initial state before
any obtain completes — an interleaving nothing in the code forbids — each
invocation that decides to obtain invokes `obtainOrRenewCert` itself.  This
definition counts those obtain invocations. -/
def concurrentEnsureObtains (env : CertEnv) (fs : CertFs) (cache : CertCache)
    (now renewBefore : Int) (fqdn : String) (n : Nat) : Nat :=
  n * (if (checkAndManageCert env fs cache now renewBefore fqdn).2 then 1 else 0)

/-! ### Concrete certificate-manager sample data -/

/-- A parser that accepts exactly the pair `("CRT", "KEY")` and reports its
`NotAfter` as `864000` (ten days, in seconds). -/
def tenDayEnv : CertEnv :=
  { parseKeyPair := fun c k =>
      if c = "CRT" ∧ k = "KEY" then .ok (⟨"leafcert"⟩, 864000)
      else .error "x509 parse failure" }

/-- Thirty days, in seconds: the `renewBefore` of the spec's scenario. -/
def thirtyDays : Int := 2592000

/-- Files holding the ten-day certificate for `x.example.com`. -/
def tenDayFs : CertFs :=
  { crt := [("x.example.com", "CRT")], key := [("x.example.com", "KEY")] }

/-- Files whose `.crt` exists for `bad.example.com` but whose contents do not
parse under `tenDayEnv`. -/
def corruptFs : CertFs :=
  { crt := [("bad.example.com", "GARBAGE")], key := [("bad.example.com", "KEY")] }

/-- The empty certificate directory. -/
def emptyFs : CertFs := { crt := [], key := [] }

/-! ### Claim C6 -/

/-- C6: with a loadable persisted certificate, `CheckAndManageCert` invokes
the obtain exactly when `now > notAfter - renewBefore` (the time remaining
until `notAfter` is strictly below `renewBefore`); with the certificate file
absent it always invokes the obtain. -/
theorem checkAndManageCert_renewal_condition (env : CertEnv) (fs : CertFs)
    (cache : CertCache) (now renewBefore : Int) (fqdn : String) :
    (∀ certData keyData cert notAfter,
        lookupKey fqdn fs.crt = some certData →
        lookupKey fqdn fs.key = some keyData →
        env.parseKeyPair certData keyData = .ok (cert, notAfter) →
        ((checkAndManageCert env fs cache now renewBefore fqdn).2 = true ↔
          now > notAfter - renewBefore)) ∧
    (lookupKey fqdn fs.crt = none →
        (checkAndManageCert env fs cache now renewBefore fqdn).2 = true) := by
  constructor
  · intro certData keyData cert notAfter h1 h2 h3
    simp only [checkAndManageCert, loadCertFromFile, h1, h2, h3, decide_eq_true_eq]
    omega
  · intro h1
    simp only [checkAndManageCert, h1]

/-- C6 witness: under the ten-day certificate and a thirty-day `renewBefore`
the obtain is invoked (at `now = 0`, `notAfter - renewBefore = -1728000 < 0`),
and with no certificate file it is invoked as well. -/
theorem checkAndManageCert_renewal_condition_witness :
    (checkAndManageCert tenDayEnv tenDayFs [] 0 thirtyDays "x.example.com").2 = true ∧
    (checkAndManageCert tenDayEnv emptyFs [] 0 thirtyDays "new.example.com").2 = true := by
  constructor
  · exact ((checkAndManageCert_renewal_condition tenDayEnv tenDayFs [] 0 thirtyDays
      "x.example.com").1 "CRT" "KEY" ⟨"leafcert"⟩ 864000 rfl rfl rfl).mpr
      (by decide)
  · exact (checkAndManageCert_renewal_condition tenDayEnv emptyFs [] 0 thirtyDays
      "new.example.com").2 rfl

/-! ### Claim C10 -/

/-- C10: when the certificate file exists but the pair fails to load (missing
key file or unparsable contents), `CheckAndManageCert` returns without
invoking the obtain, and — with nothing cached for that fqdn — the
handshake-time lookup for it fails as well. -/
theorem checkAndManageCert_no_obtain_on_corrupt (env : CertEnv) (fs : CertFs)
    (cache : CertCache) (now renewBefore : Int) (fqdn : String)
    (certData : String) (e : LoadError)
    (h1 : lookupKey fqdn fs.crt = some certData)
    (h2 : (loadCertFromFile env fs cache fqdn).2 = .error e) :
    (checkAndManageCert env fs cache now renewBefore fqdn).2 = false ∧
    (fqdn ≠ "" → lookupKey fqdn cache = none →
      (getCertificateForSNI env fs cache fqdn).2 = .error .notAvailable) := by
  constructor
  · simp only [checkAndManageCert, h1, h2]
  · intro hne hc
    simp only [getCertificateForSNI, if_neg hne, hc, h2]

/-- C10 witness: for `bad.example.com`, whose `.crt` exists but does not
parse, the maintenance path performs no obtain and the handshake path errors. -/
theorem checkAndManageCert_no_obtain_on_corrupt_witness :
    (checkAndManageCert tenDayEnv corruptFs [] 0 thirtyDays "bad.example.com").2 = false ∧
    (getCertificateForSNI tenDayEnv corruptFs [] "bad.example.com").2 =
      .error .notAvailable := by
  have h := checkAndManageCert_no_obtain_on_corrupt tenDayEnv corruptFs [] 0 thirtyDays
    "bad.example.com" "GARBAGE" (.parseFailed "x509 parse failure") rfl rfl
  exact ⟨h.1, h.2 (by decide) rfl⟩

/-! ### Claim C9 -/

/-- C9: an empty requested server name makes `GetCertificateForSNI` fail with
the missing-SNI error and no certificate, with the cache untouched and the
outcome independent of both the cache and the persisted files — neither is
consulted. -/
theorem getCertificateForSNI_empty_name (env : CertEnv) (fs : CertFs)
    (cache : CertCache) :
    getCertificateForSNI env fs cache "" = (cache, .error .missingSNI) := by
  unfold getCertificateForSNI
  rw [if_pos rfl]

/-! ### Claim C7 -/

theorem loadCertFromFile_ok_shape (env : CertEnv) (fs : CertFs)
    (cache : CertCache) (fqdn : String) (notAfter : Int)
    (h : (loadCertFromFile env fs cache fqdn).2 = .ok notAfter) :
    ∃ cert, (loadCertFromFile env fs cache fqdn).1 = (fqdn, cert) :: cache := by
  cases hcrt : lookupKey fqdn fs.crt with
  | none => simp [loadCertFromFile, hcrt] at h
  | some certData =>
    cases hkey : lookupKey fqdn fs.key with
    | none => simp [loadCertFromFile, hcrt, hkey] at h
    | some keyData =>
      cases hp : env.parseKeyPair certData keyData with
      | error e => simp [loadCertFromFile, hcrt, hkey, hp] at h
      | ok pair =>
        obtain ⟨cert, na⟩ := pair
        refine ⟨cert, ?_⟩
        simp only [loadCertFromFile, hcrt, hkey, hp]

/-- C7: for a non-empty server name, `GetCertificateForSNI` returns the cached
record when one exists (no load, cache untouched); otherwise it attempts
exactly one lazy load from the persisted files — on success the loaded
certificate is cached and returned, and on failure (no record on disk, or an
unparsable one) a not-available error is returned.  The function is a pure
read of cache and files: no path of it invokes `obtainOrRenewCert`. -/
theorem getCertificateForSNI_spec (env : CertEnv) (fs : CertFs)
    (cache : CertCache) (name : String) (hname : name ≠ "") :
    (∀ cert, lookupKey name cache = some cert →
        getCertificateForSNI env fs cache name = (cache, .ok cert)) ∧
    (lookupKey name cache = none →
      (∀ notAfter, (loadCertFromFile env fs cache name).2 = .ok notAfter →
        ∃ cert, (loadCertFromFile env fs cache name).1 = (name, cert) :: cache ∧
          getCertificateForSNI env fs cache name =
            ((name, cert) :: cache, .ok cert)) ∧
      (∀ e, (loadCertFromFile env fs cache name).2 = .error e →
        getCertificateForSNI env fs cache name =
          ((loadCertFromFile env fs cache name).1, .error .notAvailable))) := by
  refine ⟨?_, fun hc => ⟨?_, ?_⟩⟩
  · intro cert hcert
    simp only [getCertificateForSNI, if_neg hname, hcert]
  · intro notAfter hok
    obtain ⟨cert, hshape⟩ := loadCertFromFile_ok_shape env fs cache name notAfter hok
    refine ⟨cert, hshape, ?_⟩
    simp only [getCertificateForSNI, if_neg hname, hc, hok, hshape]
    simp [lookupKey]
  · intro e herr
    simp only [getCertificateForSNI, if_neg hname, hc, herr]

/-- C7 witness: a cache hit is served as is, and a cache miss over the
ten-day files lazily loads, caches, and serves the parsed certificate. -/
theorem getCertificateForSNI_spec_witness :
    getCertificateForSNI tenDayEnv emptyFs [("app.example.com", ⟨"cached"⟩)]
      "app.example.com" = ([("app.example.com", ⟨"cached"⟩)], .ok ⟨"cached"⟩) ∧
    getCertificateForSNI tenDayEnv tenDayFs [] "x.example.com" =
      ([("x.example.com", ⟨"leafcert"⟩)], .ok ⟨"leafcert"⟩) := by
  constructor
  · exact (getCertificateForSNI_spec tenDayEnv emptyFs
      [("app.example.com", ⟨"cached"⟩)] "app.example.com" (by decide)).1 ⟨"cached"⟩ rfl
  · obtain ⟨cert, hshape, heq⟩ := ((getCertificateForSNI_spec tenDayEnv tenDayFs []
      "x.example.com" (by decide)).2 rfl).1 864000 rfl
    have hl : (loadCertFromFile tenDayEnv tenDayFs [] "x.example.com").1 =
        ([("x.example.com", (⟨"leafcert"⟩ : TlsCert))] : CertCache) := rfl
    rw [hl] at hshape
    injection hshape with hh ht
    injection hh with hk hv
    rw [heq, hv]

/-! ### Claim C2 -/

/-- C2: no single-flight — the spec's scenario (a certificate with
`notAfter = now + 10 days` against `renewBefore = 30 days`, `ensure` invoked
5 times concurrently for the same fqdn) produces five `obtainOrRenewCert`
invocations, one per `CheckAndManageCert` call, not one: nothing in
`CheckAndManageCert` collapses concurrent invocations for one fqdn. -/
theorem checkAndManageCert_no_single_flight :
    concurrentEnsureObtains tenDayEnv tenDayFs [] 0 thirtyDays "x.example.com" 5 = 5 ∧
    (5 : Nat) ≠ 1 := by
  exact ⟨rfl, by decide⟩

/-! ### Claim C4 -/

/-- The previously persisted pair and cached record for `a.example.com`. -/
def oldPairFs : CertFs :=
  { crt := [("a.example.com", "OLDCRT")], key := [("a.example.com", "OLDKEY")] }

/-- The cache holding the previously valid record for `a.example.com`. -/
def oldCache : CertCache := [("a.example.com", ⟨"oldcert"⟩)]

/-- An obtain whose ACME step succeeds, whose certificate-file write succeeds,
and whose key-file write fails. -/
def keyWriteFailsEnv : ObtainEnv :=
  { obtainResult := .ok ("NEWCRT", "NEWKEY"), writeCrtOk := true, writeKeyOk := false }

/-- A parser environment never reached on the failing path. -/
def unreachedParseEnv : CertEnv :=
  { parseKeyPair := fun _ _ => .error "not reached" }

/-- C4 counterexample: an obtain that fails at the persistence step (the key
write fails after the certificate write succeeded) does NOT leave the
previously valid persisted pair unchanged: `obtainOrRenewCert` reports a
failure, yet the persisted certificate file now holds the new, never-validated
material while the key file still holds the old key — a mixed pair.  (The
cached in-memory record does survive.) -/
theorem obtainOrRenewCert_overwrites_before_validation :
    (obtainOrRenewCert unreachedParseEnv keyWriteFailsEnv oldPairFs oldCache
        "a.example.com").res = .error "failed to save private key" ∧
    lookupKey "a.example.com" oldPairFs.crt = some "OLDCRT" ∧
    lookupKey "a.example.com"
      (obtainOrRenewCert unreachedParseEnv keyWriteFailsEnv oldPairFs oldCache
        "a.example.com").fs.crt = some "NEWCRT" ∧
    lookupKey "a.example.com"
      (obtainOrRenewCert unreachedParseEnv keyWriteFailsEnv oldPairFs oldCache
        "a.example.com").fs.key = some "OLDKEY" := by
  exact ⟨rfl, rfl, rfl, rfl⟩

/-- C4 (amended): an obtain that fails at the ACME-order step leaves files,
cache and all unchanged; and the cached in-memory record is replaced only by
material that parsed and validated successfully — any record read from the
cache after the call is either the one cached before it or a certificate the
parser accepted.  (The persisted file pair, however, is rewritten as soon as
the ACME step succeeds, before validation — see the counterexample.) -/
theorem obtainOrRenewCert_failure_keeps_old_record (env : CertEnv)
    (oenv : ObtainEnv) (fs : CertFs) (cache : CertCache) (fqdn : String) :
    (∀ e, oenv.obtainResult = .error e →
        obtainOrRenewCert env oenv fs cache fqdn =
          ⟨fs, cache, .error ("failed to obtain certificate: " ++ e)⟩) ∧
    (∀ cert, lookupKey fqdn (obtainOrRenewCert env oenv fs cache fqdn).cache =
          some cert →
        lookupKey fqdn cache = some cert ∨
        ∃ certBytes keyBytes notAfter,
          oenv.obtainResult = .ok (certBytes, keyBytes) ∧
          env.parseKeyPair certBytes keyBytes = .ok (cert, notAfter)) := by
  constructor
  · intro e he
    simp only [obtainOrRenewCert, he]
  · intro cert hcert
    cases ho : oenv.obtainResult with
    | error e =>
      simp only [obtainOrRenewCert, ho] at hcert
      exact Or.inl hcert
    | ok bytes =>
      obtain ⟨certBytes, keyBytes⟩ := bytes
      cases hw1 : oenv.writeCrtOk with
      | false =>
        simp only [obtainOrRenewCert, ho, hw1, Bool.false_eq_true, if_false] at hcert
        exact Or.inl hcert
      | true =>
        cases hw2 : oenv.writeKeyOk with
        | false =>
          simp only [obtainOrRenewCert, ho, hw1, hw2, Bool.false_eq_true, if_true,
            if_false] at hcert
          exact Or.inl hcert
        | true =>
          simp only [obtainOrRenewCert, ho, hw1, hw2, if_true] at hcert
          cases hp : env.parseKeyPair certBytes keyBytes with
          | error e =>
            simp [loadCertFromFile, lookupKey, hp] at hcert
            exact Or.inl hcert
          | ok pair =>
            obtain ⟨cert0, na⟩ := pair
            simp [loadCertFromFile, lookupKey, hp] at hcert
            subst hcert
            exact Or.inr ⟨certBytes, keyBytes, na, rfl, hp⟩

/-- An obtain whose ACME step fails with a rate-limit error. -/
def failedObtainEnv : ObtainEnv :=
  { obtainResult := .error "rate limited", writeCrtOk := true, writeKeyOk := true }

/-- C4 (amended) witness: a rate-limited obtain leaves the persisted pair, the
cache and the cached record for `a.example.com` untouched. -/
theorem obtainOrRenewCert_failure_keeps_old_record_witness :
    obtainOrRenewCert unreachedParseEnv failedObtainEnv oldPairFs oldCache
        "a.example.com" =
      ⟨oldPairFs, oldCache, .error "failed to obtain certificate: rate limited"⟩ ∧
    (lookupKey "a.example.com" oldCache = some ⟨"oldcert"⟩ ∨
      ∃ certBytes keyBytes notAfter,
        failedObtainEnv.obtainResult = .ok (certBytes, keyBytes) ∧
        unreachedParseEnv.parseKeyPair certBytes keyBytes =
          .ok (⟨"oldcert"⟩, notAfter)) := by
  constructor
  · exact (obtainOrRenewCert_failure_keeps_old_record unreachedParseEnv
      failedObtainEnv oldPairFs oldCache "a.example.com").1 "rate limited" rfl
  · exact (obtainOrRenewCert_failure_keeps_old_record unreachedParseEnv
      failedObtainEnv oldPairFs oldCache "a.example.com").2 ⟨"oldcert"⟩ rfl

/-! ## DNS-01 record-name derivation (Gandi provider)

`Present` and `CleanUp` both compute
`recordName := strings.TrimSuffix(fqdn, "."+p.baseZone+".")` and fail with an
explicit error — publishing (or deleting) nothing — when `recordName == fqdn`,
i.e. when the suffix was not present.  The challenge fqdn handed to them by
the ACME library is dot-terminated (`_acme-challenge.<domain>.`), which is why
the stripped suffix carries the trailing root dot.  Go strings are byte
sequences; they are modelled as `List Char`. -/

/-- `strings.TrimSuffix`: drop `suffix` from the end of `s` when present,
otherwise return `s` unchanged. -/
def trimSuffix (s suffix : List Char) : List Char :=
  if suffix <:+ s then s.take (s.length - suffix.length) else s

/-- The record-name derivation shared by `Present` (part_000 lines 37–44) and
`CleanUp` (lines 83–89): strip `"." + baseZone + "."` from the challenge fqdn;
when nothing was stripped, fail with an explicit error instead of touching any
DNS record. -/
def deriveRecordName (baseZone fqdn : List Char) : Except String (List Char) :=
  let recordName := trimSuffix fqdn ('.' :: (baseZone ++ ['.']))
  if recordName = fqdn then
    .error "could not derive record name from fqdn and base zone"
  else .ok recordName

/-! ### Claim C8 -/

/-- C8: for every base zone `Z` and challenge fqdn `F` (dot-terminated, as
produced by the ACME library), the derivation returns `F` with the suffix
`.Z.` stripped exactly when `F` ends with `.Z.`, and fails with an explicit
error — so that nothing is published — when it does not. -/
theorem deriveRecordName_spec :
    (∀ zone p : List Char,
        deriveRecordName zone (p ++ '.' :: (zone ++ ['.'])) = .ok p) ∧
    (∀ zone fqdn : List Char, ¬ ('.' :: (zone ++ ['.'])) <:+ fqdn →
        deriveRecordName zone fqdn =
          .error "could not derive record name from fqdn and base zone") := by
  constructor
  · intro zone p
    have hsuf : ('.' :: (zone ++ ['.'])) <:+ (p ++ '.' :: (zone ++ ['.'])) :=
      ⟨p, rfl⟩
    have hlen : (p ++ '.' :: (zone ++ ['.'])).length -
        ('.' :: (zone ++ ['.'])).length = p.length := by
      simp
    have htrim : trimSuffix (p ++ '.' :: (zone ++ ['.'])) ('.' :: (zone ++ ['.'])) =
        p := by
      rw [trimSuffix, if_pos hsuf, hlen]
      exact List.take_left p _
    have hne : p ≠ p ++ '.' :: (zone ++ ['.']) := by
      intro he
      have := congrArg List.length he
      simp at this
    simp only [deriveRecordName, htrim, if_neg hne]
  · intro zone fqdn hnot
    have htrim : trimSuffix fqdn ('.' :: (zone ++ ['.'])) = fqdn := by
      rw [trimSuffix, if_neg hnot]
    simp [deriveRecordName, htrim]

/-- C8 witness: under zone `example.com`, the challenge fqdn
`_acme-challenge.app.example.com.` derives to `_acme-challenge.app`, while a
fqdn outside the zone fails with the explicit error. -/
theorem deriveRecordName_spec_witness :
    deriveRecordName "example.com".data "_acme-challenge.app.example.com.".data =
      .ok "_acme-challenge.app".data ∧
    deriveRecordName "example.com".data "_acme-challenge.app.other.org.".data =
      .error "could not derive record name from fqdn and base zone" := by
  constructor
  · have hshape : "_acme-challenge.app.example.com.".data =
        "_acme-challenge.app".data ++ '.' :: ("example.com".data ++ ['.']) := by
      decide
    rw [hshape]
    exact deriveRecordName_spec.1 "example.com".data "_acme-challenge.app".data
  · exact deriveRecordName_spec.2 "example.com".data
      "_acme-challenge.app.other.org.".data (by decide)

end Rproxy
